import Mathlib

/-!
Verification development for the blueberry-browser agent-orchestration core.

Each definition below is a shallow embedding of a function of the repository;
the source file and symbol it embeds is named in its doc comment.  JavaScript
strings are modelled by Lean `String` (lengths and `substring` are taken over
the `List Char` data, one unit per character), JS `undefined`-able values by
`Option`, and thrown exceptions by `Except String`.  External effects (the
LLM, the live page, the sandbox) are passed in as explicit oracle arguments.
-/

namespace Blueberry

/-- JS `s.substring(0, n)` over a Lean string (per-character). -/
def jsSub (s : String) (n : Nat) : String :=
  String.mk (s.data.take n)

/-! ### Think-act-observe loop (src/src/automation/core/agent.ts, `runThinkActObserveLoop`)

The loop body (lines 474-709 of agent.ts) is embedded as a state machine over
the loop-local mutable data: the `actionsTaken` action log, the tracked agent
tabs, and the active tab index.  An LLM "script" supplies, for each iteration,
the list of tool calls the model returned (an empty list models a response
with no tool calls).  The page/DOM effects of registry tools do not feed back
into this state except through each call's `execOutput` oracle field (the
`result.output` text the real tool produced); `task_complete`'s result is
computed from its arguments exactly as `done.execute` does
(src/unnamed/part_006, ActionRegistry.done). -/

/-- One entry of the loop-local `actionsTaken` log (agent.ts lines 378-384). -/
structure ActionRecord where
  step : Nat
  action : String
  target : Option Nat
  result : String
deriving DecidableEq, Repr

/-- One tool call returned by the LLM, together with the oracle text the
registry execution produced for it (`execOutput` stands for `result.output`
of every tool other than `task_complete`, whose result is computed from
`argSuccess`/`argSummary` below).  `index` and `tab_index` are the
`toolArgs.index` / `toolArgs.tab_index` arguments (absent = `none`). -/
structure ToolCall where
  name : String
  index : Option Nat
  tab_index : Option Nat
  argSuccess : Option Bool
  argSummary : Option String
  execOutput : String
deriving DecidableEq, Repr

/-- The `{success, summary}` record the loop returns (agent.ts line 255). -/
structure LoopResult where
  success : Bool
  summary : String
deriving DecidableEq, Repr

/-- The loop-local mutable state: `actionsTaken`, the key set of `agentTabs`,
and `activeTabIndex` (agent.ts lines 384-398).  Pages/DOM handles carried by
the tab map do not influence the control flow modelled here. -/
structure LoopState where
  log : List ActionRecord
  tabs : List Nat
  activeTab : Nat
deriving DecidableEq, Repr

/-- Tool names of the Action Registry, in `Object.values` order
(src/unnamed/part_006, `ActionRegistry`). -/
def registryNames : List String :=
  ["navigate", "refresh", "go_back", "click_element", "input_text",
   "scroll_page", "press_key", "open_tab", "switch_to_tab", "close_tab",
   "switch_tab", "extract_content", "task_complete", "analyze_data"]

/-- agent.ts lines 646-648: `actionsTaken.filter(a => a.action === call.name
&& a.target === toolArgs.index && a.target !== undefined).length`. -/
def duplicateCount (log : List ActionRecord) (name : String) (target : Option Nat) : Nat :=
  (log.filter (fun a => a.action == name && a.target == target && !(a.target == none))).length

/-- The `task_complete` tool's result (src/unnamed/part_006, `done.execute`):
`const { success = false, summary = 'No summary provided' } = params || {}`. -/
def taskCompleteResult (c : ToolCall) : LoopResult :=
  ⟨c.argSuccess.getD false, c.argSummary.getD "No summary provided"⟩

/-- `result` of dispatching call `c` to the registry: `task_complete` is the
embedded `done.execute`; every other tool's output text is the oracle field. -/
def dispatchResult (c : ToolCall) : LoopResult :=
  if c.name == "task_complete" then taskCompleteResult c else ⟨true, c.execOutput⟩

/-- The abort summary of agent.ts line 660. -/
def stuckSummary (name : String) (target : Option Nat) : String :=
  "Stuck in loop: repeated " ++ name ++ " on element #" ++
    (match target with | some t => toString t | none => "undefined")

/-- Outcome of handling one tool call: either the loop continues with an
updated state (and possibly a pending `task_complete` result), or it returns
immediately (the `duplicateCount >= 4` force exit of agent.ts line 658). -/
inductive StepOutcome where
  | next (st : LoopState) (pending : Option LoopResult)
  | exit (r : LoopResult)
deriving DecidableEq, Repr

/-- Handling of a single tool call inside one loop iteration (agent.ts lines
572-680): `switch_to_tab` and `close_tab` are handled against the tab map
before any registry lookup; every other known tool is dispatched, its action
appended to `actionsTaken`, and the repetition detector run over the log;
`task_complete` marks the iteration as completed. -/
def processOne (stepCount : Nat) (st : LoopState) (pending : Option LoopResult)
    (c : ToolCall) : StepOutcome :=
  if c.name == "switch_to_tab" then
    match c.tab_index with
    | some t =>
      if st.tabs.contains t then
        .next { st with activeTab := t,
                        log := st.log ++ [⟨stepCount, c.name, some t, "Switched"⟩] } pending
      else .next st pending
    | none => .next st pending
  else if c.name == "close_tab" then
    match c.tab_index with
    | some t =>
      if t == 0 then .next st pending
      else if st.tabs.contains t then
        .next { st with tabs := st.tabs.erase t,
                        activeTab := if st.activeTab == t then 0 else st.activeTab,
                        log := st.log ++ [⟨stepCount, c.name, some t, "Closed"⟩] } pending
      else .next st pending
    | none => .next st pending
  else if registryNames.contains c.name then
    let res := dispatchResult c
    let log' := st.log ++ [⟨stepCount, c.name, c.index, jsSub res.summary 80⟩]
    if duplicateCount log' c.name c.index ≥ 4 then
      .exit ⟨false, stuckSummary c.name c.index⟩
    else
      let st' := { st with log := log' }
      if c.name == "task_complete" then .next st' (some res)
      else .next st' pending
  else .next st pending

/-- Sequential handling of one iteration's tool calls (the `for (const call of
response.toolCalls)` loop), threading the per-iteration `taskCompleted`
flag/result as `pending`. -/
def processCalls (stepCount : Nat) : LoopState → Option LoopResult → List ToolCall → StepOutcome
  | st, pending, [] => .next st pending
  | st, pending, c :: rest =>
    match processOne stepCount st pending c with
    | .exit r => .exit r
    | .next st' p' => processCalls stepCount st' p' rest

/-- One full iteration of the while-loop at step `stepCount` (agent.ts lines
477-698): handle the calls, then exit if `task_complete` was seen. -/
def runIteration (stepCount : Nat) (st : LoopState) (calls : List ToolCall) :
    LoopState ⊕ LoopResult :=
  match processCalls stepCount st none calls with
  | .exit r => .inr r
  | .next st' pending =>
    match pending with
    | some r => .inr r
    | none => .inl st'

/-- agent.ts line 475: `const MAX_STEPS = 25`. -/
def MAX_STEPS : Nat := 25

/-- The while-loop (agent.ts lines 477-708), driven by the remaining step
budget `n = MAX_STEPS - stepCount`; the script is consumed one LLM response
per iteration, and iterations past the end of the script behave as responses
with no tool calls.  Exhausting the budget returns the "max steps" failure of
line 708. -/
def runLoopAux : Nat → Nat → LoopState → List (List ToolCall) → LoopResult
  | 0, _, _, _ => ⟨false, "Max steps reached without completion"⟩
  | n + 1, stepCount, st, script =>
    match runIteration (stepCount + 1) st (script.headD []) with
    | .inr r => r
    | .inl st' => runLoopAux n (stepCount + 1) st' script.tail

/-- `runThinkActObserveLoop`, from the initial tab state `{0 ↦ primary tab}`
and an empty action log. -/
def runThinkActObserveLoop (script : List (List ToolCall)) : LoopResult :=
  runLoopAux MAX_STEPS 0 ⟨[], [0], 0⟩ script

/-! ### Memory manager (src/unnamed/part_001, `MemoryManager`)

The repository carries two revisions of `MemoryManager`; the one embedded
here is the newer revision in src/unnamed/part_001 (its comments state its
constants were "Reduced from" the values still found in
src/src/automation/core/memory.ts, and it alone contains the entry-length
truncation and the summarization-failure fallback the spec describes).  The
LLM call of `summarizeOldest` is an explicit `Except` oracle: `.error` models
a rejected `llm.generate` promise.  Only the plain-string branch of `add` is
embedded (the array branch merely pre-joins multimodal text parts before the
same truncation). -/

/-- A role-tagged history entry (src/unnamed/part_000, `ChatMessage`). -/
structure ChatMessage where
  role : String
  content : String
deriving DecidableEq, Repr

/-- The `MemoryManager` fields: the entry log and the rolling summary. -/
structure MemState where
  history : List ChatMessage
  summary : String
deriving DecidableEq, Repr

/-- part_001 line 6: `MAX_TOKENS = 4000`. -/
def MAX_TOKENS : Nat := 4000

/-- part_001 line 7: `SUMMARY_THRESHOLD = 2000`. -/
def SUMMARY_THRESHOLD : Nat := 2000

/-- part_001 line 8: `MAX_MESSAGE_LENGTH = 5000`. -/
def MAX_MESSAGE_LENGTH : Nat := 5000

/-- part_001 line 56: `PRESERVE_COUNT = 6`. -/
def PRESERVE_COUNT : Nat := 6

/-- The marker part_001's `add` appends to a truncated entry. -/
def truncationMarker : String := "...[message truncated]"

/-- `MemoryManager.add` (part_001 lines 12-34, string branch): an entry longer
than `MAX_MESSAGE_LENGTH` is cut to that length and the truncation marker is
appended; the entry is then pushed onto the history. -/
def memAdd (st : MemState) (role content : String) : MemState :=
  let text :=
    if content.length > MAX_MESSAGE_LENGTH then
      jsSub content MAX_MESSAGE_LENGTH ++ truncationMarker
    else content
  { st with history := st.history ++ [⟨role, text⟩] }

/-- `estimateTokens` (part_001 lines 80-87): `Math.ceil(charCount / 4) + 100`. -/
def estimateTokens (msgs : List ChatMessage) : Nat :=
  (msgs.foldl (fun acc m => acc + m.content.length) 0 + 3) / 4 + 100

/-- `summarizeOldest` (part_001 lines 55-78): keep the `PRESERVE_COUNT` most
recent entries; on LLM success replace the older ones by a summary capped at
`SUMMARY_THRESHOLD`, on LLM failure (`catch`) just drop them. -/
def summarizeOldest (llm : Except String String) (st : MemState) : MemState :=
  if st.history.length ≤ PRESERVE_COUNT then st
  else
    let recent := st.history.drop (st.history.length - PRESERVE_COUNT)
    match llm with
    | .ok content => { history := recent, summary := jsSub content SUMMARY_THRESHOLD }
    | .error _ => { st with history := recent }

/-- `getContext` (part_001 lines 36-53): summarize when over `MAX_TOKENS`,
then return the history with the summary (when present) prefixed as a
system entry.  Returns the context together with the updated manager state
(the original mutates `this`). -/
def getContext (llm : Except String String) (st : MemState) :
    List ChatMessage × MemState :=
  let st' := if estimateTokens st.history > MAX_TOKENS then summarizeOldest llm st else st
  let ctx :=
    if st'.summary ≠ "" then
      ⟨"system", "PREVIOUS ACTIVITY SUMMARY: " ++ st'.summary⟩ :: st'.history
    else st'.history
  (ctx, st')

/-! ### Planner (src/src/automation/core/planner.ts)

`JSON.parse` over the fenced LLM output is modelled by an oracle outcome:
`failure` is a parse exception, `success steps?` a parsed object whose
`steps` field is `steps?` (`none` when the field is absent or null; a parsed
array — even an empty one — is truthy in `plan.steps || [goal]`). -/

/-- Outcome of parsing the planner LLM response. -/
inductive ParseOutcome where
  | failure
  | success (steps : Option (List String))
deriving DecidableEq, Repr

/-- `makePlan` (planner.ts lines 45-53): `return plan.steps || [goal]`, with
`[goal]` on any parse exception. -/
def makePlan (goal : String) (outcome : ParseOutcome) : List String :=
  match outcome with
  | .failure => [goal]
  | .success none => [goal]
  | .success (some steps) => steps

/-- `rePlan` (planner.ts lines 78-84): `return plan.steps || currentSteps`,
with `currentSteps` on any parse exception. -/
def rePlan (currentSteps : List String) (outcome : ParseOutcome) : List String :=
  match outcome with
  | .failure => currentSteps
  | .success none => currentSteps
  | .success (some steps) => steps

/-! ### Action Registry safety wrapper (src/unnamed/part_006)

Thrown JS errors are modelled by `Except String` carrying the error message. -/

/-- A tool's `{success, output}` result (part_006, `ActionResult`). -/
structure ActionResult where
  success : Bool
  output : String
deriving DecidableEq, Repr

/-- `safeExecute` (part_006 lines 291-302): the operation's exception becomes
a failed result whose text is `Action Failed: ` plus the error message. -/
def safeExecute (operation : Except String String) : ActionResult :=
  match operation with
  | .ok message => ⟨true, message⟩
  | .error e => ⟨false, "Action Failed: " ++ e⟩

/-- The sandbox outcome `analyze_data` inspects (part_006, `ExecutionResult`
restricted to the fields the tool reads). -/
structure SandboxResult where
  stdout : String
  stderr : String
  error : Option String
  artifactNames : List String
deriving DecidableEq, Repr

/-- The output text `analyze_data` builds from a sandbox result
(part_006 lines 625-632). -/
def analyzeDataOutput (r : SandboxResult) : String :=
  let output := (if r.stdout ≠ "" then "STDOUT:\n" ++ r.stdout ++ "\n" else "")
    ++ (if r.stderr ≠ "" then "STDERR:\n" ++ r.stderr ++ "\n" else "")
    ++ (match r.error with | some e => "ERROR:\n" ++ e ++ "\n" | none => "")
    ++ (if r.artifactNames ≠ [] then
          "ARTIFACTS GENERATED:\n" ++ String.intercalate ", " r.artifactNames
        else "")
  if output = "" then "Code executed successfully with no output." else output

/-- `analyze_data.execute` (part_006 lines 619-638).  `code?` is `none` when
the `code` argument is absent and `some ""` when it is the empty string (both
falsy in `if (!code) throw ...`); `run` is the `e2b.executeCode` oracle.  The
`throw` sits before the tool's own `try`, outside `safeExecute`, so it is an
`Except.error` of `execute` itself — an exception escaping to the caller —
while sandbox failures are caught and become `{success:false, output}`. -/
def analyzeDataExecute (code? : Option String) (run : Except String SandboxResult) :
    Except String ActionResult :=
  match code? with
  | none => .error "Missing 'code' parameter."
  | some code =>
    if code = "" then .error "Missing 'code' parameter."
    else
      match run with
      | .ok r => .ok ⟨true, analyzeDataOutput r⟩
      | .error e => .ok ⟨false, "Execution failed: " ++ e⟩

/-! ### Path execution (src/src/automation/core/agent.ts, `executePathInAgent`)

Tasks are mutated through object references in the original; here a task is
addressed by its id (unique within a plan, per the plan invariant) and the
plan's task list is rewritten functionally.  The per-task loop outcome is an
oracle `outcomes : String → LoopResult` mapping a task id to the
`runThinkActObserveLoop` result for that task. -/

/-- A plan task (src/src/automation/types/agent.ts `Task`, plus the `result`
field `executePathInAgent` stores on it). -/
structure Task where
  id : String
  description : String
  status : String
  dependencies : List String
  result : Option String
deriving DecidableEq, Repr

/-- `task.status = st` for the task with the given id. -/
def setStatus (tasks : List Task) (tid status : String) : List Task :=
  tasks.map (fun t => if t.id = tid then { t with status := status } else t)

/-- `(task as any).result = r` for the task with the given id. -/
def setResult (tasks : List Task) (tid r : String) : List Task :=
  tasks.map (fun t => if t.id = tid then { t with result := some r } else t)

/-- The `for (const task of path)` body of `executePathInAgent` (agent.ts
lines 177-202): mark the task running, run its loop, record status and result
summary; on failure mark every remaining task of the path failed and stop. -/
def executePathGo (outcomes : String → LoopResult) :
    List Task → List String → List Task
  | tasks, [] => tasks
  | tasks, tid :: rest =>
    let tasks := setStatus tasks tid "running"
    let r := outcomes tid
    let tasks := setStatus tasks tid (if r.success then "completed" else "failed")
    let tasks := setResult tasks tid r.summary
    if r.success then executePathGo outcomes tasks rest
    else rest.foldl (fun acc tid2 => setStatus acc tid2 "failed") tasks

/-- `executePathInAgent` restricted to its task-state effects (the
surface/tab allocation around it does not touch task fields). -/
def executePathInAgent (tasks : List Task) (path : List String)
    (outcomes : String → LoopResult) : List Task :=
  executePathGo outcomes tasks path

/-! ### DOM perception (src/src/automation/dom/injection/buildDomTree.ts)

The live DOM is modelled by a tree of elements; each element carries the
attributes, computed style and bounding rect the traversal reads, and its
`childNodes` as an interleaved list of text nodes and element children
(`node.children` is the element sublist).  Geometry is over `Int` (the
exclusion logic only compares coordinates).  The `nodeMap` /
`data-blueberry-id` side effects do not influence the produced tree beyond
the id counter, which is threaded explicitly. -/

/-- The element data the traversal reads from a live node. -/
structure ElementFields where
  tagName : String
  attrs : List (String × String)
  className : String
  styleDisplay : String
  styleVisibility : String
  styleOpacity : String
  styleCursor : String
  rectX : Int
  rectY : Int
  rectWidth : Int
  rectHeight : Int
  rectTop : Int
  rectRight : Int
  rectBottom : Int
  rectLeft : Int
deriving DecidableEq, Repr

mutual
/-- A DOM element: its fields and its `childNodes`. -/
inductive DomNode where
  | mk : ElementFields → DomChildren → DomNode
deriving DecidableEq

/-- A `childNodes` list: text nodes interleaved with element children. -/
inductive DomChildren where
  | nil : DomChildren
  | consText : String → DomChildren → DomChildren
  | consElem : DomNode → DomChildren → DomChildren
deriving DecidableEq
end

/-- The fields of a node. -/
def DomNode.fields : DomNode → ElementFields
  | .mk f _ => f

/-- The `childNodes` of a node. -/
def DomNode.childNodes : DomNode → DomChildren
  | .mk _ kids => kids

/-- `node.getAttribute(name)` (`null` = `none`). -/
def getAttr (f : ElementFields) (name : String) : Option String :=
  (f.attrs.find? (fun p => p.1 = name)).map (·.2)

/-- `node.hasAttribute(name)`. -/
def hasAttr (f : ElementFields) (name : String) : Bool :=
  (f.attrs.find? (fun p => p.1 = name)).isSome

/-- Lower-case a string per character (JS `toLowerCase` on ASCII). -/
def lowerStr (s : String) : String :=
  String.mk (s.data.map Char.toLower)

/-- `needle` occurs at the head of `hay`. -/
def startsList : List Char → List Char → Bool
  | _, [] => true
  | [], _ :: _ => false
  | c :: cs, d :: ds => c == d && startsList cs ds

/-- JS `hay.includes(needle)` over character lists. -/
def containsList : List Char → List Char → Bool
  | hay, needle =>
    if startsList hay needle then true
    else
      match hay with
      | [] => false
      | _ :: t => containsList t needle

/-- JS `hay.includes(needle)`. -/
def jsIncludes (hay needle : String) : Bool :=
  containsList hay.data needle.data

/-- JS `s.startsWith(p)`. -/
def jsStartsWith (s p : String) : Bool :=
  startsList s.data p.data

/-- `checkInteractivity` (buildDomTree.ts lines 147-204): semantic tags, ARIA
roles, inline click handlers, pointer cursor, labels, YouTube custom
elements, video-keyword heuristics, and video-thumbnail images. -/
def checkInteractivity (f : ElementFields) : Bool :=
  let tagName := lowerStr f.tagName
  if ["button", "a", "input", "select", "textarea", "details", "summary"].contains tagName then
    true
  else if ["button", "link", "menuitem", "checkbox", "radio", "tab", "combobox",
           "textbox", "switch"].contains ((getAttr f "role").getD "") then
    true
  else if hasAttr f "onclick" || hasAttr f "ng-click" || hasAttr f "@click" then
    true
  else if f.styleCursor == "pointer" || f.styleCursor == "hand" then
    true
  else if tagName == "label" then
    true
  else if (jsStartsWith tagName "ytd-" || jsStartsWith tagName "ytm-") &&
      ((match getAttr f "aria-label" with
        | some al => jsIncludes (lowerStr al) "video" || jsIncludes (lowerStr al) "watch"
        | none => false) ||
       jsIncludes tagName "thumbnail" || jsIncludes tagName "video") then
    true
  else if (["video", "thumbnail", "play-button", "player", "watch"].any
        (fun kw => jsIncludes (lowerStr (((getAttr f "id").getD "") ++ " " ++ f.className
          ++ " " ++ ((getAttr f "aria-label").getD ""))) kw)) &&
      !(f.styleCursor == "default") then
    true
  else if lowerStr f.tagName == "img" &&
      (jsIncludes (lowerStr ((getAttr f "alt").getD "")) "video" ||
       jsIncludes (lowerStr ((getAttr f "alt").getD "")) "thumbnail") then
    true
  else
    false

mutual
/-- `node.textContent`: the concatenation of all text nodes of the subtree. -/
def textContent : DomNode → String
  | .mk _ kids => textContentKids kids

/-- `textContent` over a `childNodes` list. -/
def textContentKids : DomChildren → String
  | .nil => ""
  | .consText s rest => s ++ textContentKids rest
  | .consElem n rest => textContent n ++ textContentKids rest
end

/-- The container-text accumulation of buildDomTree.ts lines 113-118: only
the node's own direct `TEXT_NODE` children contribute. -/
def ownText : DomChildren → String
  | .nil => ""
  | .consText s rest => s ++ ownText rest
  | .consElem _ rest => ownText rest

/-- buildDomTree.ts lines 125-128: text over `MAX_TEXT = 6000` characters is
cut and marked `...[truncated]`. -/
def capText (text : String) : String :=
  if text.length > 6000 then jsSub text 6000 ++ "...[truncated]" else text

/-- A node of the produced perception tree (buildDomTree.ts `ElementData`;
the `attributes`/`rect` payload fields, which no exclusion or text logic
depends on, are not carried). -/
structure ElementData where
  nodeId : Nat
  tagName : String
  text : String
  isInteractive : Bool
  isVisible : Bool
  parentId : Option Nat
  children : List ElementData

/-- buildDomTree.ts lines 52-57: skip blueberry overlay elements. -/
def isBlueberryId (f : ElementFields) : Bool :=
  match getAttr f "id" with
  | some nodeId =>
    nodeId == "blueberry-spectator-overlay" || nodeId == "blueberry-cursor" ||
    nodeId == "blueberry-highlight-container" || jsStartsWith nodeId "blueberry-"
  | none => false

/-- buildDomTree.ts lines 64-69: `isVisible`. -/
def isVisibleNode (f : ElementFields) : Bool :=
  !(f.styleDisplay == "none") && !(f.styleVisibility == "hidden") &&
  !(f.styleOpacity == "0") && f.rectWidth > 0 && f.rectHeight > 0

/-- buildDomTree.ts lines 74-78: `inViewport` (viewport `vw × vh`). -/
def inViewport (vw vh : Int) (f : ElementFields) : Bool :=
  f.rectBottom > 0 && f.rectRight > 0 && f.rectTop < vh && f.rectLeft < vw

/-- buildDomTree.ts line 81: `isTooSmall` (less than 10×10). -/
def isTooSmall (f : ElementFields) : Bool :=
  f.rectWidth < 10 || f.rectHeight < 10

mutual
/-- `recursiveTraverse` (buildDomTree.ts lines 44-145).  The global
`nodeIdCounter` is threaded as `counter`; the result is the produced subtree
(or `none` when the node is skipped) with the updated counter. -/
def recursiveTraverse (vw vh : Int) : DomNode → Nat → Option Nat →
    Option ElementData × Nat
  | .mk f kids, counter, parentId =>
    if isBlueberryId f then (none, counter)
    else if !isVisibleNode f then (none, counter)
    else if !inViewport vw vh f || isTooSmall f then (none, counter)
    else
      let isInteractive := checkInteractivity f
      let currentId := counter + 1
      let (childrenData, counter') := traverseChildren vw vh kids currentId currentId
      let text := if isInteractive then textContentKids kids else ownText kids
      if !isInteractive && childrenData.length == 0 && text.length == 0 then
        (none, counter')
      else
        (some { nodeId := currentId
                tagName := lowerStr f.tagName
                text := capText text
                isInteractive := isInteractive
                isVisible := true
                parentId := parentId
                children := childrenData }, counter')

/-- The `for (const child of Array.from(node.children))` loop: traverse the
element children in order, collecting non-null results. -/
def traverseChildren (vw vh : Int) : DomChildren → Nat → Nat →
    List ElementData × Nat
  | .nil, counter, _ => ([], counter)
  | .consText _ rest, counter, parentId => traverseChildren vw vh rest counter parentId
  | .consElem n rest, counter, parentId =>
    match recursiveTraverse vw vh n counter (some parentId) with
    | (some d, counter') =>
      let (ds, counter'') := traverseChildren vw vh rest counter' parentId
      (d :: ds, counter'')
    | (none, counter') => traverseChildren vw vh rest counter' parentId
end

/-! ## Theorems -/

/-- Length of `jsSub`. -/
theorem jsSub_length (s : String) (n : Nat) : (jsSub s n).length = min n s.length := by
  rw [show (jsSub s n).length = (s.data.take n).length from rfl, List.length_take]
  rfl

/-- Length of a string append (over the character data). -/
theorem string_append_length (a b : String) : (a ++ b).length = a.length + b.length :=
  String.length_append a b

/-- C8: `makePlan` returns the parsed step list and degrades to `[goal]` on a
parse failure (or a missing `steps` field) without throwing; `rePlan`
likewise returns the current steps on failure.  Both functions are total, so
no exception can propagate. -/
theorem planner_parse_fallback (goal : String) (steps cur : List String) :
    makePlan goal .failure = [goal] ∧
    makePlan goal (.success none) = [goal] ∧
    makePlan goal (.success (some steps)) = steps ∧
    rePlan cur .failure = cur ∧
    rePlan cur (.success none) = cur ∧
    rePlan cur (.success (some steps)) = steps :=
  ⟨rfl, rfl, rfl, rfl, rfl, rfl⟩

/-- C3: evaluating `analyze_data.execute` at an input with no `code` argument
(or an empty one): the `Missing 'code'` error is thrown outside both
`safeExecute` and the tool's own `try`, so `execute` rejects — the exception
escapes to the calling loop instead of becoming a `success=false` result. -/
theorem analyzeData_missing_code_escapes (run : Except String SandboxResult) :
    analyzeDataExecute none run = .error "Missing 'code' parameter." ∧
    analyzeDataExecute (some "") run = .error "Missing 'code' parameter." :=
  ⟨rfl, rfl⟩

/-- A 5001-character entry, used to exercise the `add` truncation. -/
def overlongContent : String := String.mk (List.replicate 5001 'a')

/-- C7 counterexample: appending a 5001-character entry to an empty memory
stores an entry of length 5022 — the 5000-character cap (`MAX_MESSAGE_LENGTH`)
is exceeded by the 22-character truncation marker, so the stored entry is
*not* at most the cap. -/
theorem memAdd_exceeds_cap :
    ((memAdd ⟨[], ""⟩ "user" overlongContent).history.map (fun m => m.content.length))
      = [5022] ∧ ¬(5022 ≤ MAX_MESSAGE_LENGTH) := by
  have hlen : overlongContent.length = 5001 := by
    rw [show overlongContent.length = (List.replicate 5001 'a').length from rfl]
    exact List.length_replicate 5001 'a'
  constructor
  · simp only [memAdd, hlen, MAX_MESSAGE_LENGTH]
    norm_num
    rw [jsSub_length, hlen]
    decide
  · decide

/-- C7 (amended): `add` truncates an over-long entry to `MAX_MESSAGE_LENGTH`
characters and appends the truncation marker, so every stored entry's length
is at most `MAX_MESSAGE_LENGTH + 22` (the cap plus the marker), and that
bound is preserved by every `add`. -/
theorem memAdd_bounded (st : MemState) (role content : String)
    (h : ∀ m ∈ st.history, m.content.length ≤ MAX_MESSAGE_LENGTH + truncationMarker.length) :
    ∀ m ∈ (memAdd st role content).history,
      m.content.length ≤ MAX_MESSAGE_LENGTH + truncationMarker.length := by
  intro m hm
  simp only [memAdd, List.mem_append, List.mem_singleton] at hm
  rcases hm with hm | hm
  · exact h m hm
  · subst hm
    simp only
    split
    · rw [string_append_length, jsSub_length]
      omega
    · next hlen => omega

/-- C7 amended witness: the entry stored for the concrete 5001-character add
(which is a member of the history after that add) is within the
`cap + marker` bound. -/
theorem memAdd_bounded_witness :
    (⟨"assistant", jsSub overlongContent MAX_MESSAGE_LENGTH ++ truncationMarker⟩ :
      ChatMessage).content.length ≤ MAX_MESSAGE_LENGTH + truncationMarker.length :=
  memAdd_bounded ⟨[⟨"user", "hi"⟩], ""⟩ "assistant" overlongContent (by decide) _ (by
    have hlen : overlongContent.length > MAX_MESSAGE_LENGTH := by
      rw [show overlongContent.length = (List.replicate 5001 'a').length from rfl,
        List.length_replicate]
      decide
    simp only [memAdd, if_pos hlen]
    exact List.mem_append_right _ (List.mem_cons_self _ _))

/-- C6: when the history is over the `MAX_TOKENS` budget and the LLM
summarization call fails, `getContext` does not propagate the error: it
drops the entries older than the `PRESERVE_COUNT` most recent ones, leaves
the summary unchanged, and still returns a context (the kept entries with
the existing summary, if any, prefixed as a system entry). -/
theorem getContext_degrades_on_failure (st : MemState) (e : String)
    (hover : estimateTokens st.history > MAX_TOKENS)
    (hlen : PRESERVE_COUNT < st.history.length) :
    getContext (.error e) st =
      ((if st.summary ≠ "" then
          ⟨"system", "PREVIOUS ACTIVITY SUMMARY: " ++ st.summary⟩ ::
            st.history.drop (st.history.length - PRESERVE_COUNT)
        else st.history.drop (st.history.length - PRESERVE_COUNT)),
       { st with history := st.history.drop (st.history.length - PRESERVE_COUNT) }) := by
  have h1 : ¬(st.history.length ≤ PRESERVE_COUNT) := Nat.not_le.mpr hlen
  simp only [getContext, summarizeOldest, if_pos hover, if_neg h1]

/-- A 15601-character entry, enough to put a history over the token budget. -/
def overbudgetContent : String := String.mk (List.replicate 15601 'b')

/-- Six short recent entries. -/
def shortEntries : List ChatMessage :=
  [⟨"user", "a"⟩, ⟨"assistant", "b"⟩, ⟨"user", "c"⟩,
   ⟨"assistant", "d"⟩, ⟨"user", "e"⟩, ⟨"assistant", "f"⟩]

/-- The concrete seven-entry history is over the `MAX_TOKENS` budget. -/
theorem hOverbudget :
    estimateTokens (⟨"user", overbudgetContent⟩ :: shortEntries) > MAX_TOKENS := by
  have hl : overbudgetContent.length = 15601 := by
    rw [show overbudgetContent.length = (List.replicate 15601 'b').length from rfl]
    exact List.length_replicate _ _
  simp only [estimateTokens, shortEntries, List.foldl_cons, List.foldl_nil, hl, MAX_TOKENS]
  decide

/-- C6 witness: a concrete over-budget memory (one 15601-character entry and
six short ones, no summary yet) with a failing LLM: the context returned is
exactly the six most recent entries and the big entry is dropped. -/
theorem getContext_degrades_witness :
    estimateTokens (⟨"user", overbudgetContent⟩ :: shortEntries) > MAX_TOKENS ∧
    PRESERVE_COUNT < (⟨"user", overbudgetContent⟩ :: shortEntries).length ∧
    getContext (.error "network") ⟨⟨"user", overbudgetContent⟩ :: shortEntries, ""⟩ =
      (shortEntries, ⟨shortEntries, ""⟩) := by
  refine ⟨?_, ?_, ?_⟩
  · exact hOverbudget
  · simp only [shortEntries, List.length_cons, List.length_nil]
    decide
  · rw [getContext_degrades_on_failure ⟨⟨"user", overbudgetContent⟩ :: shortEntries, ""⟩
      "network" hOverbudget
      (by simp only [shortEntries, List.length_cons, List.length_nil]; decide)]
    simp [shortEntries, PRESERVE_COUNT]

/-- The repetition detector counts nothing when the recorded target is
`undefined`: the `a.target !== undefined` conjunct rejects every entry. -/
theorem duplicateCount_target_none (l : List ActionRecord) (name : String) :
    duplicateCount l name none = 0 := by
  simp only [duplicateCount]
  rw [List.filter_eq_nil_iff.mpr]
  · rfl
  · intro a _
    cases h : (a.target == none) <;> simp [h]

/-- Appending a record with a defined target increments the detector's count
for exactly that `(action, target)` pair. -/
theorem duplicateCount_append_some (l : List ActionRecord) (k : Nat) (name r : String) (t : Nat) :
    duplicateCount (l ++ [⟨k, name, some t, r⟩]) name (some t) =
      duplicateCount l name (some t) + 1 := by
  simp [duplicateCount, List.filter_append]

/-- C10: a tool call whose recorded target (`toolArgs.index`) is undefined can
never trigger the "stuck in loop" force exit, whatever the current action
log, tab state or step: handling it always continues the loop. -/
theorem untargeted_actions_never_abort (k : Nat) (st : LoopState)
    (pending : Option LoopResult) (c : ToolCall) (h : c.index = none) :
    ∀ r : LoopResult, processOne k st pending c ≠ .exit r := by
  intro r hcontra
  simp only [processOne, h] at hcontra
  split at hcontra
  · split at hcontra
    · split at hcontra <;> simp_all
    · simp_all
  · split at hcontra
    · split at hcontra
      · split at hcontra
        · simp_all
        · split at hcontra <;> simp_all
      · simp_all
    · split at hcontra
      · split at hcontra
        · simp_all [duplicateCount_target_none]
        · split at hcontra <;> simp_all
      · simp_all

/-- C10 witness: a `navigate` call (no `index` argument) against a state that
already logged many navigates still does not abort. -/
theorem untargeted_actions_never_abort_witness :
    processOne 9 ⟨List.replicate 8 ⟨1, "navigate", none, "Navigated"⟩, [0], 0⟩ none
        ⟨"navigate", none, none, none, none, "Navigated"⟩ ≠
      .exit ⟨false, stuckSummary "navigate" none⟩ :=
  untargeted_actions_never_abort 9 _ none _ rfl _

/-- C2: dispatching a registry tool call with a defined target aborts the
task as failed ("stuck in loop") exactly when it is the 4th occurrence of its
`(action, target)` pair in the loop-local action log (3 occurrences already
logged), and never aborts on the 1st, 2nd or 3rd occurrence (at most 2
already logged).  Tab-management calls (`switch_to_tab`/`close_tab`) are
handled before the registry dispatch, hence the side conditions. -/
theorem repetition_detector_fourth (k : Nat) (st : LoopState) (pending : Option LoopResult)
    (c : ToolCall) (t : Nat)
    (hname : c.name ∈ registryNames)
    (hsw : c.name ≠ "switch_to_tab") (hcl : c.name ≠ "close_tab")
    (hidx : c.index = some t) :
    (duplicateCount st.log c.name c.index = 3 →
      processOne k st pending c = .exit ⟨false, stuckSummary c.name c.index⟩) ∧
    (duplicateCount st.log c.name c.index < 3 →
      ∀ r : LoopResult, processOne k st pending c ≠ .exit r) := by
  have hb1 : (c.name == "switch_to_tab") = false := by simpa using hsw
  have hb2 : (c.name == "close_tab") = false := by simpa using hcl
  have hcont : registryNames.contains c.name = true := by simpa using hname
  constructor
  · intro h3
    rw [hidx] at h3 ⊢
    simp only [processOne, hb1, hb2, hcont, Bool.false_eq_true, if_false, if_true, hidx]
    rw [duplicateCount_append_some, h3]
    simp
  · intro h3 r hcontra
    rw [hidx] at h3
    simp only [processOne, hb1, hb2, hcont, Bool.false_eq_true, if_false, if_true,
      hidx] at hcontra
    rw [duplicateCount_append_some] at hcontra
    have hlt : ¬(duplicateCount st.log c.name (some t) + 1 ≥ 4) := by omega
    rw [if_neg hlt] at hcontra
    split at hcontra <;> simp_all

/-- A log holding three `click_element` actions on element 5. -/
def threeClicksLog : List ActionRecord :=
  [⟨1, "click_element", some 5, "Clicked"⟩, ⟨2, "click_element", some 5, "Clicked"⟩,
   ⟨3, "click_element", some 5, "Clicked"⟩]

/-- C2 witness: the 4th `click_element` on element 5 is force-exited with the
"stuck in loop" failure. -/
theorem repetition_detector_fourth_witness :
    processOne 4 ⟨threeClicksLog, [0], 0⟩ none
        ⟨"click_element", some 5, none, none, none, "Clicked"⟩ =
      .exit ⟨false, stuckSummary "click_element" (some 5)⟩ :=
  (repetition_detector_fourth 4 ⟨threeClicksLog, [0], 0⟩ none
      ⟨"click_element", some 5, none, none, none, "Clicked"⟩ 5
      (by decide) (by decide) (by decide) rfl).1 (by decide)

/-- A `click_element` call on element `i`. -/
def clickCall (i : Nat) : ToolCall :=
  ⟨"click_element", some i, none, none, none, "Clicked"⟩

/-- A `task_complete` call with the given arguments. -/
def completeCall (b : Bool) (s : String) : ToolCall :=
  ⟨"task_complete", none, none, some b, some s, ""⟩

/-- C1 counterexample: a task whose last 4 click actions target elements
1, 2, 1, 2 (the exact A,B,A,B alternation the claim says is aborted as
failed) is *not* aborted: the loop keeps running and the task completes
normally on the next step. -/
theorem oscillating_clicks_not_aborted :
    runThinkActObserveLoop
      [[clickCall 1], [clickCall 2], [clickCall 1], [clickCall 2],
       [completeCall true "completed normally"]] = ⟨true, "completed normally"⟩ := by
  decide

/-- C1 (amended): the loop has no oscillation detector.  Four clicks
alternating between any two distinct targets A,B,A,B do not abort the task —
the loop continues and a subsequent completion succeeds — and likewise for
clicks targeting #1,#2,#3,#1.  (Only the 4-fold repetition of one
`(action, target)` pair aborts.) -/
theorem no_oscillation_abort (a b : Nat) (hab : a ≠ b) (s : String) :
    runThinkActObserveLoop [[clickCall a], [clickCall b], [clickCall a], [clickCall b],
      [completeCall true s]] = ⟨true, s⟩ ∧
    runThinkActObserveLoop [[clickCall 1], [clickCall 2], [clickCall 3], [clickCall 1],
      [completeCall true s]] = ⟨true, s⟩ := by
  have h1 : ((some a : Option Nat) == some b) = false := by simp [hab]
  have h2 : ((some b : Option Nat) == some a) = false := by simp [Ne.symm hab]
  constructor
  · simp [runThinkActObserveLoop, runLoopAux, runIteration, processCalls, processOne,
      registryNames, duplicateCount, dispatchResult, taskCompleteResult, jsSub, MAX_STEPS,
      clickCall, completeCall, h1, h2]
  · simp [runThinkActObserveLoop, runLoopAux, runIteration, processCalls, processOne,
      registryNames, duplicateCount, dispatchResult, taskCompleteResult, jsSub, MAX_STEPS,
      clickCall, completeCall]

/-- C1 amended witness: alternating clicks on elements 7 and 9 followed by a
completion — the task completes with the completion's summary. -/
theorem no_oscillation_abort_witness :
    runThinkActObserveLoop [[clickCall 7], [clickCall 9], [clickCall 7], [clickCall 9],
      [completeCall true "ok"]] = ⟨true, "ok"⟩ ∧
    runThinkActObserveLoop [[clickCall 1], [clickCall 2], [clickCall 3], [clickCall 1],
      [completeCall true "ok"]] = ⟨true, "ok"⟩ :=
  no_oscillation_abort 7 9 (by decide) "ok"

/-- Spec helper: occurrences of the pair `(name, some t)` in a call list. -/
def pairCount (cs : List ToolCall) (name : String) (t : Nat) : Nat :=
  (cs.filter (fun c => c.name == name && c.index == some t)).length

/-- Spec helper: records of the pair `(name, some t)` in an action log. -/
def logPairCount (l : List ActionRecord) (name : String) (t : Nat) : Nat :=
  (l.filter (fun a => a.action == name && a.target == some t)).length

/-- For a defined target the detector's count coincides with the plain
pair count (the `!== undefined` conjunct is redundant there). -/
theorem duplicateCount_eq_logPairCount (l : List ActionRecord) (name : String) (t : Nat) :
    duplicateCount l name (some t) = logPairCount l name t := by
  simp only [duplicateCount, logPairCount]
  congr 1
  apply List.filter_congr
  intro a _
  cases a.target <;> simp

/-- Appending one record changes a pair count by at most its own match. -/
theorem logPairCount_append_one (l : List ActionRecord) (rec : ActionRecord)
    (name : String) (t : Nat) :
    logPairCount (l ++ [rec]) name t =
      logPairCount l name t + (if rec.action == name && rec.target == some t then 1 else 0) := by
  simp only [logPairCount, List.filter_append, List.length_append]
  congr 1
  by_cases h : (rec.action == name && rec.target == some t) = true <;> simp [List.filter, h]

/-- Unfolding `pairCount` over a cons. -/
theorem pairCount_cons (c : ToolCall) (cs : List ToolCall) (name : String) (t : Nat) :
    pairCount (c :: cs) name t =
      (if c.name == name && c.index == some t then 1 else 0) + pairCount cs name t := by
  simp only [pairCount, List.filter_cons]
  by_cases h : (c.name == name && c.index == some t) = true <;> simp [h, Nat.add_comm]

/-- `pairCount` is additive over append. -/
theorem pairCount_append (xs ys : List ToolCall) (name : String) (t : Nat) :
    pairCount (xs ++ ys) name t = pairCount xs name t + pairCount ys name t := by
  simp [pairCount, List.filter_append]

/-- A call that is not `task_complete` and whose targeted pair has at most 2
prior occurrences is handled without exiting, and grows each non-tab pair
count by at most the call's own contribution. -/
theorem processOne_no_exit (k : Nat) (st : LoopState) (pending : Option LoopResult)
    (c : ToolCall) (hnc : c.name ≠ "task_complete")
    (hcnt : ∀ t, c.index = some t → c.name ≠ "switch_to_tab" → c.name ≠ "close_tab" →
      logPairCount st.log c.name t ≤ 2) :
    ∃ st', processOne k st pending c = .next st' pending ∧
      ∀ name t, name ≠ "switch_to_tab" → name ≠ "close_tab" →
        logPairCount st'.log name t ≤
          logPairCount st.log name t + pairCount [c] name t := by
  have hsingle : ∀ name t, pairCount [c] name t =
      if c.name == name && c.index == some t then 1 else 0 := by
    intro name t
    rw [show ([c] : List ToolCall) = c :: [] from rfl, pairCount_cons]
    simp [pairCount]
  by_cases hsw : c.name = "switch_to_tab"
  · simp only [processOne, hsw, beq_self_eq_true, if_true]
    match htab : c.tab_index with
    | some t =>
      by_cases hmem : t ∈ st.tabs
      · refine ⟨{ st with activeTab := t, log := st.log ++ [⟨k, "switch_to_tab", some t, "Switched"⟩] }, by simp [hmem], ?_⟩
        intro name tt hnsw hncl
        rw [logPairCount_append_one]
        have hne : (ActionRecord.action ⟨k, "switch_to_tab", some t, "Switched"⟩ == name) = false := by
          simp [Ne.symm hnsw]
        simp only [hne, Bool.false_and, Bool.false_eq_true, if_false]
        omega
      · refine ⟨st, by simp [hmem], ?_⟩
        intro name tt _ _; omega
    | none => exact ⟨st, by simp, by intro name tt _ _; omega⟩
  · by_cases hcl : c.name = "close_tab"
    · have hb1 : (c.name == "switch_to_tab") = false := by simp [hsw]
      simp only [processOne, hb1, Bool.false_eq_true, if_false, hcl, beq_self_eq_true, if_true]
      match htab : c.tab_index with
      | some t =>
        by_cases ht0 : t = 0
        · exact ⟨st, by simp [ht0], by intro name tt _ _; omega⟩
        · have hbt0 : (t == 0) = false := by simp [ht0]
          by_cases hmem : t ∈ st.tabs
          · refine ⟨{ st with tabs := st.tabs.erase t, activeTab := if st.activeTab == t then 0 else st.activeTab, log := st.log ++ [⟨k, "close_tab", some t, "Closed"⟩] }, by simp [hbt0, hmem], ?_⟩
            intro name tt hnsw hncl
            rw [logPairCount_append_one]
            have hne : (ActionRecord.action ⟨k, "close_tab", some t, "Closed"⟩ == name) = false := by
              simp [Ne.symm hncl]
            simp only [hne, Bool.false_and, Bool.false_eq_true, if_false]
            omega
          · exact ⟨st, by simp [hbt0, hmem], by intro name tt _ _; omega⟩
      | none => exact ⟨st, by simp, by intro name tt _ _; omega⟩
    · have hb1 : (c.name == "switch_to_tab") = false := by simp [hsw]
      have hb2 : (c.name == "close_tab") = false := by simp [hcl]
      have hb3 : (c.name == "task_complete") = false := by simp [hnc]
      by_cases hreg : registryNames.contains c.name
      · have hdc : ¬(duplicateCount
            (st.log ++ [⟨k, c.name, c.index, jsSub (dispatchResult c).summary 80⟩])
            c.name c.index ≥ 4) := by
          match hidx : c.index with
          | none => rw [duplicateCount_target_none]; omega
          | some t =>
            rw [duplicateCount_append_some, duplicateCount_eq_logPairCount]
            have := hcnt t hidx hsw hcl
            omega
        refine ⟨{ st with log := st.log ++ [⟨k, c.name, c.index, jsSub (dispatchResult c).summary 80⟩] }, ?_, ?_⟩
        · simp only [processOne, hb1, hb2, hb3, hreg, Bool.false_eq_true, if_false, if_true,
            if_neg hdc]
        · intro name tt hnsw hncl
          rw [logPairCount_append_one, hsingle]
      · have hregf : (registryNames.contains c.name) = false := by simpa using hreg
        refine ⟨st, ?_, by intro name tt _ _; omega⟩
        simp only [processOne, hb1, hb2, hregf, Bool.false_eq_true, if_false]

/-- An iteration's call list with no `task_complete` and all non-tab pair
counts (log so far plus calls) within 3 is processed without exiting. -/
theorem processCalls_no_exit (k : Nat) (cs : List ToolCall) :
    ∀ (st : LoopState) (pending : Option LoopResult),
    (∀ c ∈ cs, c.name ≠ "task_complete") →
    (∀ name t, name ≠ "switch_to_tab" → name ≠ "close_tab" →
      logPairCount st.log name t + pairCount cs name t ≤ 3) →
    ∃ st', processCalls k st pending cs = .next st' pending ∧
      ∀ name t, name ≠ "switch_to_tab" → name ≠ "close_tab" →
        logPairCount st'.log name t ≤ logPairCount st.log name t + pairCount cs name t := by
  induction cs with
  | nil =>
    intro st pending _ _
    exact ⟨st, rfl, by intro name t _ _; simp [pairCount]⟩
  | cons c rest ih =>
    intro st pending hnc hcnt
    have hc1 : c.name ≠ "task_complete" := hnc c (List.mem_cons_self _ _)
    have hcall : ∀ t, c.index = some t → c.name ≠ "switch_to_tab" → c.name ≠ "close_tab" →
        logPairCount st.log c.name t ≤ 2 := by
      intro t hidx hsw hcl
      have h := hcnt c.name t hsw hcl
      rw [pairCount_cons] at h
      simp only [hidx, beq_self_eq_true, Bool.and_self, if_true] at h
      omega
    obtain ⟨st1, heq, hgrow⟩ := processOne_no_exit k st pending c hc1 hcall
    have hs : ∀ name t, pairCount [c] name t =
        if c.name == name && c.index == some t then 1 else 0 := by
      intro name t
      rw [show ([c] : List ToolCall) = c :: [] from rfl, pairCount_cons]
      simp [pairCount]
    have hcnt1 : ∀ name t, name ≠ "switch_to_tab" → name ≠ "close_tab" →
        logPairCount st1.log name t + pairCount rest name t ≤ 3 := by
      intro name t hsw hcl
      have h := hcnt name t hsw hcl
      have hg := hgrow name t hsw hcl
      rw [pairCount_cons] at h
      rw [hs name t] at hg
      omega
    obtain ⟨st', heq', hgrow'⟩ :=
      ih st1 pending (fun c' hc' => hnc c' (List.mem_cons_of_mem _ hc')) hcnt1
    refine ⟨st', ?_, ?_⟩
    · simp only [processCalls, heq, heq']
    · intro name t hsw hcl
      have hg1 := hgrow name t hsw hcl
      have hg2 := hgrow' name t hsw hcl
      rw [hs name t] at hg1
      rw [pairCount_cons]
      omega

/-- The loop only ever consumes the first `n` responses of the script. -/
theorem runLoopAux_take : ∀ (n k : Nat) (st : LoopState) (s : List (List ToolCall)),
    runLoopAux n k st s = runLoopAux n k st (s.take n) := by
  intro n
  induction n with
  | zero => intro k st s; rfl
  | succ n ih =>
    intro k st s
    match s with
    | [] => rfl
    | calls :: rest =>
      show runLoopAux (n + 1) k st (calls :: rest) =
        runLoopAux (n + 1) k st (calls :: rest.take n)
      simp only [runLoopAux, List.headD, List.tail]
      cases h : runIteration (k + 1) st calls with
      | inr r => rfl
      | inl st' => exact ih (k + 1) st' rest

/-- With no completion call and all non-tab pair counts within 3, the loop
runs out its budget and returns the max-steps failure. -/
theorem runLoopAux_max_steps : ∀ (n k : Nat) (st : LoopState) (script : List (List ToolCall)),
    (∀ c ∈ (script.take n).flatten, c.name ≠ "task_complete") →
    (∀ name t, name ≠ "switch_to_tab" → name ≠ "close_tab" →
      logPairCount st.log name t + pairCount ((script.take n).flatten) name t ≤ 3) →
    runLoopAux n k st script = ⟨false, "Max steps reached without completion"⟩ := by
  intro n
  induction n with
  | zero => intro k st script _ _; rfl
  | succ n ih =>
    intro k st script hnc hcnt
    match script with
    | [] =>
      have h0 : processCalls (k + 1) st none ([] : List ToolCall) = .next st none := rfl
      show runLoopAux n (k + 1) st [] = _
      apply ih
      · simp
      · intro name t hsw hcl
        have := hcnt name t hsw hcl
        simpa using this
    | calls :: rest =>
      have hflat : ((calls :: rest).take (n + 1)).flatten = calls ++ (rest.take n).flatten := by
        simp [List.take_succ_cons]
      rw [hflat] at hnc hcnt
      have hnchead : ∀ c ∈ calls, c.name ≠ "task_complete" := by
        intro c hc; exact hnc c (List.mem_append_left _ hc)
      have hcnthead : ∀ name t, name ≠ "switch_to_tab" → name ≠ "close_tab" →
          logPairCount st.log name t + pairCount calls name t ≤ 3 := by
        intro name t hsw hcl
        have := hcnt name t hsw hcl
        rw [pairCount_append] at this
        omega
      obtain ⟨st1, heq, hgrow⟩ := processCalls_no_exit (k + 1) calls st none hnchead hcnthead
      have hiter : runIteration (k + 1) st calls = .inl st1 := by
        simp only [runIteration, heq]
      show runLoopAux (n + 1) k st (calls :: rest) = _
      simp only [runLoopAux, List.headD, List.tail, hiter]
      apply ih
      · intro c hc; exact hnc c (List.mem_append_right _ hc)
      · intro name t hsw hcl
        have h := hcnt name t hsw hcl
        have hg := hgrow name t hsw hcl
        rw [pairCount_append] at h
        omega

/-- C4: the think-act-observe loop performs at most `MAX_STEPS = 25`
iterations (its result only depends on the first 25 LLM responses), and when
the budget is exhausted without the completion tool being invoked (no
`task_complete` call, and no 4-fold repeated pair that would abort earlier),
it returns `success = false` with the "max steps reached" summary. -/
theorem loop_step_budget (script : List (List ToolCall)) :
    runThinkActObserveLoop script = runThinkActObserveLoop (script.take MAX_STEPS) ∧
    ((∀ c ∈ (script.take MAX_STEPS).flatten, c.name ≠ "task_complete") →
     (∀ name t, name ≠ "switch_to_tab" → name ≠ "close_tab" →
        pairCount ((script.take MAX_STEPS).flatten) name t ≤ 3) →
     runThinkActObserveLoop script = ⟨false, "Max steps reached without completion"⟩) := by
  constructor
  · exact runLoopAux_take MAX_STEPS 0 _ script
  · intro h1 h2
    apply runLoopAux_max_steps MAX_STEPS 0 _ script h1
    intro name t hsw hcl
    have := h2 name t hsw hcl
    have hz : logPairCount (⟨[], [0], 0⟩ : LoopState).log name t = 0 := rfl
    omega

/-- C4 witness: a two-response script of distinct clicks never completes, so
the loop returns the max-steps failure. -/
theorem loop_step_budget_witness :
    runThinkActObserveLoop [[clickCall 1], [clickCall 2]] =
      runThinkActObserveLoop ([[clickCall 1], [clickCall 2]].take MAX_STEPS) ∧
    runThinkActObserveLoop [[clickCall 1], [clickCall 2]] =
      ⟨false, "Max steps reached without completion"⟩ := by
  have h := loop_step_budget [[clickCall 1], [clickCall 2]]
  refine ⟨h.1, h.2 (by decide) ?_⟩
  intro name t _ _
  exact le_trans (List.length_filter_le _ _) (by decide)

/-- Spec helper: the per-task effect of running a path whose first failing
task sits at position `i`: tasks before it complete with their summaries, the
failing task and all later path tasks are failed (only the failing one gets a
result), and any task off the path is untouched. -/
def pathOutcomeUpdate (path : List String) (outcomes : String → LoopResult) (i : Nat)
    (t : Task) : Task :=
  if t.id ∈ path.take i then
    { t with status := "completed", result := some (outcomes t.id).summary }
  else if path.getD i "" = t.id then
    { t with status := "failed", result := some (outcomes t.id).summary }
  else if t.id ∈ path.drop (i + 1) then
    { t with status := "failed" }
  else t

/-- Marking a list of task ids failed is a pointwise map. -/
theorem foldl_setStatus_failed (ids : List String) (ts : List Task) :
    ids.foldl (fun acc tid2 => setStatus acc tid2 "failed") ts =
      ts.map (fun t => if t.id ∈ ids then { t with status := "failed" } else t) := by
  induction ids generalizing ts with
  | nil => simp
  | cons tid rest ih =>
    rw [List.foldl_cons, ih]
    simp only [setStatus, List.map_map]
    congr 1
    funext t
    by_cases h1 : t.id = tid
    · by_cases h2 : t.id ∈ rest <;> simp [h1, h2]
    · by_cases h2 : t.id ∈ rest <;> simp [h1, h2]

/-- C5: when the task at position `i` of a path fails (and all earlier path
tasks succeeded), path execution completes the earlier tasks, marks the
failing task and every later task of the path `failed`, and maps every task
whose id is not on the path to itself — the status and result fields of
tasks in other execution paths are unchanged. -/
theorem executePath_failure (tasks : List Task) (path : List String)
    (outcomes : String → LoopResult) (i : Nat)
    (hi : i < path.length) (hnd : path.Nodup)
    (hsucc : ∀ j, j < i → (outcomes (path.getD j "")).success = true)
    (hfail : (outcomes (path.getD i "")).success = false) :
    executePathInAgent tasks path outcomes = tasks.map (pathOutcomeUpdate path outcomes i) ∧
    ∀ t : Task, t.id ∉ path → pathOutcomeUpdate path outcomes i t = t := by
  refine ⟨?_, ?_⟩
  case refine_2 =>
    intro t ht
    have h1 : t.id ∉ path.take i := fun h => ht (List.mem_of_mem_take h)
    have h3 : t.id ∉ path.drop (i + 1) := fun h => ht (List.mem_of_mem_drop h)
    have hgd : path.getD i "" ∈ path := by
      rw [List.getD_eq_getElem path "" hi]
      exact List.getElem_mem hi
    have h2 : ¬ path.getD i "" = t.id := fun h => ht (h ▸ hgd)
    have h2' : ¬ path[i]?.getD "" = t.id := by simpa [List.getD] using h2
    simp [pathOutcomeUpdate, h1, h2', h3]
  induction path generalizing tasks i with
  | nil => exact absurd hi (by simp)
  | cons tid rest ih =>
    have hninr : tid ∉ rest := (List.nodup_cons.mp hnd).1
    have hndr : rest.Nodup := (List.nodup_cons.mp hnd).2
    cases i with
    | zero =>
      have hfail0 : (outcomes tid).success = false := hfail
      show executePathGo outcomes tasks (tid :: rest) = _
      simp only [executePathGo, hfail0, Bool.false_eq_true, if_false]
      rw [foldl_setStatus_failed]
      simp only [setStatus, setResult, List.map_map]
      congr 1
      funext t
      simp only [pathOutcomeUpdate, List.take_zero, List.not_mem_nil, if_false,
        List.getD_cons_zero, List.drop_succ_cons, List.drop_zero, Function.comp]
      by_cases h1 : t.id = tid
      · simp [h1, hninr]
      · have h1' : ¬ tid = t.id := fun h => h1 h.symm
        by_cases h2 : t.id ∈ rest <;> simp [h1, h1', h2]
    | succ j =>
      have hsucc0 : (outcomes tid).success = true := hsucc 0 (Nat.succ_pos j)
      have hij : j < rest.length := by simpa using hi
      show executePathGo outcomes tasks (tid :: rest) = _
      simp only [executePathGo, hsucc0, if_true]
      have hgo : ∀ ts : List Task, executePathGo outcomes ts rest = executePathInAgent ts rest outcomes :=
        fun _ => rfl
      rw [hgo, ih _ j hij hndr (fun k hk => hsucc (k + 1) (Nat.succ_lt_succ hk)) hfail]
      simp only [setStatus, setResult, List.map_map]
      congr 1
      funext t
      simp only [pathOutcomeUpdate, List.take_succ_cons, List.getD_cons_succ,
        List.drop_succ_cons, Function.comp]
      by_cases h1 : t.id = tid
      · have hgd : rest.getD j "" ∈ rest := by
          rw [List.getD_eq_getElem rest "" hij]
          exact List.getElem_mem hij
        have hne0 : rest.getD j "" ≠ tid := fun h => hninr (h ▸ hgd)
        have hne : rest[j]?.getD "" ≠ tid := by simpa [List.getD] using hne0
        have hnt1 : tid ∉ rest.take j := fun h => hninr (List.mem_of_mem_take h)
        have hnt2 : tid ∉ rest.drop (j + 1) := fun h => hninr (List.mem_of_mem_drop h)
        simp [h1, hne, hnt1, hnt2]
      · have h1' : ¬ tid = t.id := fun h => h1 h.symm
        simp [h1, h1']

/-- A three-task plan: tasks 0 and 1 form one path, task 2 is another path. -/
def wTasks : List Task :=
  [⟨"0", "search", "pending", [], none⟩, ⟨"1", "extract", "pending", ["0"], none⟩,
   ⟨"2", "other", "pending", [], none⟩]

/-- Loop outcomes: task 0 succeeds, every other task fails. -/
def wOutcomes : String → LoopResult :=
  fun tid => if tid = "0" then ⟨true, "found"⟩ else ⟨false, "login required"⟩

/-- C5 witness: on the concrete plan, task 1 of path `["0","1"]` failing
yields exactly the per-task update — task 2 (the other path) is untouched. -/
theorem executePath_failure_witness :
    executePathInAgent wTasks ["0", "1"] wOutcomes =
      wTasks.map (pathOutcomeUpdate ["0", "1"] wOutcomes 1) ∧
    pathOutcomeUpdate ["0", "1"] wOutcomes 1 ⟨"2", "other", "pending", [], none⟩ =
      ⟨"2", "other", "pending", [], none⟩ :=
  ⟨(executePath_failure wTasks ["0", "1"] wOutcomes 1 (by decide) (by decide)
      (fun j hj => by
        have hj0 : j = 0 := by omega
        subst hj0; decide)
      (by decide)).1,
   (executePath_failure wTasks ["0", "1"] wOutcomes 1 (by decide) (by decide)
      (fun j hj => by
        have hj0 : j = 0 := by omega
        subst hj0; decide)
      (by decide)).2 ⟨"2", "other", "pending", [], none⟩ (by decide)⟩

/-- The capped text is at most the 6000-character cap plus the 14-character
`...[truncated]` marker. -/
theorem capText_length (s : String) : (capText s).length ≤ 6000 + 14 := by
  have hm : ("...[truncated]" : String).length = 14 := by decide
  simp only [capText]
  split
  · next h =>
    rw [string_append_length, jsSub_length, hm]
    omega
  · next h => omega

/-- C9: (a) a node that is zero-size, style-hidden, fully offscreen of the
`vw × vh` viewport, or below the 10×10 minimum size is excluded from the
perception tree; (b) a node that is kept carries `isInteractive` per the
interactivity heuristic, its text is the capped full subtree text when
interactive and the capped direct text-node content (no descendant text)
when it is a container, and that text never exceeds the cap plus marker. -/
theorem perception_exclusion_and_text (vw vh : Int) (f : ElementFields)
    (kids : DomChildren) (counter : Nat) (parentId : Option Nat) :
    ((f.rectWidth = 0 ∨ f.rectHeight = 0 ∨ f.styleDisplay = "none" ∨
      f.styleVisibility = "hidden" ∨ f.styleOpacity = "0" ∨
      f.rectBottom ≤ 0 ∨ f.rectRight ≤ 0 ∨ f.rectTop ≥ vh ∨ f.rectLeft ≥ vw ∨
      f.rectWidth < 10 ∨ f.rectHeight < 10) →
      (recursiveTraverse vw vh (.mk f kids) counter parentId).1 = none) ∧
    (∀ d counter', recursiveTraverse vw vh (.mk f kids) counter parentId = (some d, counter') →
      d.isInteractive = checkInteractivity f ∧
      d.text = capText (if checkInteractivity f then textContentKids kids else ownText kids) ∧
      d.text.length ≤ 6000 + 14) := by
  constructor
  · intro h
    rcases h with h | h | h | h | h | h | h | h | h | h | h
    · have hvis : isVisibleNode f = false := by simp [isVisibleNode, h]
      simp [recursiveTraverse, hvis]
    · have hvis : isVisibleNode f = false := by simp [isVisibleNode, h]
      simp [recursiveTraverse, hvis]
    · have hvis : isVisibleNode f = false := by simp [isVisibleNode, h]
      simp [recursiveTraverse, hvis]
    · have hvis : isVisibleNode f = false := by simp [isVisibleNode, h]
      simp [recursiveTraverse, hvis]
    · have hvis : isVisibleNode f = false := by simp [isVisibleNode, h]
      simp [recursiveTraverse, hvis]
    · have hv : inViewport vw vh f = false := by
        simp [inViewport]
        omega
      simp [recursiveTraverse, hv]
    · have hv : inViewport vw vh f = false := by
        simp [inViewport]
        omega
      simp [recursiveTraverse, hv]
    · have hv : inViewport vw vh f = false := by
        simp [inViewport]
        omega
      simp [recursiveTraverse, hv]
    · have hv : inViewport vw vh f = false := by
        simp [inViewport]
        omega
      simp [recursiveTraverse, hv]
    · have hsmall : isTooSmall f = true := by simp [isTooSmall]; omega
      simp [recursiveTraverse, hsmall]
    · have hsmall : isTooSmall f = true := by simp [isTooSmall]; omega
      simp [recursiveTraverse, hsmall]
  · intro d counter' h
    rw [recursiveTraverse] at h
    split at h
    · simp at h
    · split at h
      · simp at h
      · split at h
        · simp at h
        · simp only [] at h
          rcases hch : traverseChildren vw vh kids (counter + 1) (counter + 1) with ⟨cd, cnt⟩
          rw [hch] at h
          by_cases hint : checkInteractivity f = true
          · simp only [hint, if_true, Bool.not_true, Bool.false_and, Bool.false_eq_true,
              if_false] at h ⊢
            rw [Prod.mk.injEq, Option.some.injEq] at h
            obtain ⟨hd, _⟩ := h
            subst hd
            exact ⟨rfl, rfl, capText_length _⟩
          · have hbf : checkInteractivity f = false := by
              cases hcc : checkInteractivity f
              · rfl
              · exact absurd hcc hint
            simp only [hbf, Bool.false_eq_true, if_false, Bool.not_false, Bool.true_and] at h ⊢
            split at h
            · simp at h
            · rw [Prod.mk.injEq, Option.some.injEq] at h
              obtain ⟨hd, _⟩ := h
              subst hd
              exact ⟨rfl, rfl, capText_length _⟩

/-- A plain visible 100×50 `div` with default style. -/
def plainFields : ElementFields :=
  { tagName := "DIV", attrs := [], className := "", styleDisplay := "block",
    styleVisibility := "visible", styleOpacity := "1", styleCursor := "auto",
    rectX := 0, rectY := 0, rectWidth := 100, rectHeight := 50,
    rectTop := 0, rectRight := 100, rectBottom := 50, rectLeft := 0 }

/-- The same element with zero width. -/
def zeroWidthFields : ElementFields := { plainFields with rectWidth := 0 }

/-- The tree node produced for the plain container with one text child. -/
def containerData : ElementData :=
  { nodeId := 1, tagName := "div", text := "hello", isInteractive := false,
    isVisible := true, parentId := none, children := [] }

/-- C9 witness: in a 1000×800 viewport, the zero-width element is excluded,
and the kept plain container's produced node carries exactly its own direct
text within the cap. -/
theorem perception_witness :
    (recursiveTraverse 1000 800 (.mk zeroWidthFields (.consText "x" .nil)) 0 none).1 = none ∧
    (containerData.isInteractive = checkInteractivity plainFields ∧
     containerData.text = capText (if checkInteractivity plainFields then
         textContentKids (.consText "hello" .nil) else ownText (.consText "hello" .nil)) ∧
     containerData.text.length ≤ 6000 + 14) :=
  ⟨(perception_exclusion_and_text 1000 800 zeroWidthFields (.consText "x" .nil) 0 none).1
      (Or.inl rfl),
   (perception_exclusion_and_text 1000 800 plainFields (.consText "hello" .nil) 0 none).2
      containerData 1 rfl⟩

end Blueberry
